import Mathlib

/-!
Shallow embedding of the AQUAKART e-commerce mobile app's pure core:
the cart store (`src/store/cartStore.ts`), the favorites store
(`src/store/favoritesStore.ts`), the product helpers
(`src/utils/products.ts`) and the catalog-response normalizer
(`normalizeProducts` in `src/pages/Shop.tsx`).

JavaScript runtime values that flow through these functions are modelled
by the inductive `JVal`; a missing (`undefined`) object property is
modelled by `Option.none`.  JS objects used as string-keyed maps are
modelled by association lists in insertion order, with `setKey`
reproducing the spread `{...m, [k]: v}` and `removeKey` the rest-spread
`const { [k]: _removed, ...rest } = m`.
-/

namespace Aquakart

/-- A JavaScript runtime value as seen by the app's untyped API payloads:
`null`, booleans, numbers (integral, which is all the code ever produces
or compares), strings, arrays and plain objects. -/
inductive JVal where
  | jnull : JVal
  | jbool (b : Bool) : JVal
  | jnum (n : Int) : JVal
  | jstr (s : String) : JVal
  | jarr (elems : List JVal) : JVal
  | jobj (fields : List (String × JVal)) : JVal
  deriving Repr

/-- JavaScript truthiness test, negated: `!payload`.  `null`, `false`,
`0` and the empty string are falsy; every array and object is truthy. -/
def falsy : JVal → Bool
  | .jnull => true
  | .jbool b => !b
  | .jnum n => n == 0
  | .jstr s => s == ""
  | .jarr _ => false
  | .jobj _ => false

/-- `v == null` / the left side of `??`: a property value is *nullish*
when the property is absent (`undefined`) or holds `null`. -/
def nullish : Option JVal → Bool
  | none => true
  | some .jnull => true
  | some _ => false

/-- The JS nullish-coalescing operator `a ?? b` on property values. -/
def coalesce (a : Option JVal) (b : Option JVal) : Option JVal :=
  if nullish a then b else a

mutual
/-- JavaScript `String(v)` conversion for the values the app feeds it. -/
def jsToString : JVal → String
  | .jnull => "null"
  | .jbool true => "true"
  | .jbool false => "false"
  | .jnum n => toString n
  | .jstr s => s
  | .jarr elems => jsToStringList elems
  | .jobj _ => "[object Object]"

/-- `Array.prototype.toString`: elements joined with commas. -/
def jsToStringList : List JVal → String
  | [] => ""
  | [v] => jsToString v
  | v :: rest => jsToString v ++ "," ++ jsToStringList rest
end

/-- The `Product` record of `src/utils/products.ts`.  Every field is
optional there and the values come from unchecked API payloads, so each
field holds an arbitrary `JVal` or is absent.  (The `photos` array and
the index signature play no part in the helpers modelled here.) -/
structure Product where
  id : Option JVal := none
  productId : Option JVal := none
  product_id : Option JVal := none
  sku : Option JVal := none
  name : Option JVal := none
  productName : Option JVal := none
  title : Option JVal := none
  price : Option JVal := none
  sellingPrice : Option JVal := none
  mrp : Option JVal := none
  image : Option JVal := none
  imageUrl : Option JVal := none
  thumbnail : Option JVal := none
  description : Option JVal := none
  shortDescription : Option JVal := none
  deriving Repr

/-- `getProductKey` from `src/utils/products.ts`.  `Date.now()` is
modelled by the explicit parameter `now`; the optional `fallback`
argument is `none` when not supplied. -/
def getProductKey (product : Product) (fallback : Option JVal)
    (now : Int) : String :=
  jsToString
    ((coalesce product.id
      (coalesce product.productId
        (coalesce product.product_id
          (coalesce product.sku
            (coalesce fallback (some (.jstr s!"product-{now}"))))))).getD
      .jnull)

/-- `getProductTitle` from `src/utils/products.ts`:
`product.name ?? product.productName ?? product.title ??
 ` the placeholder string.  The TS annotation says the fields are
strings, but the values are unchecked, so the result is a `JVal`. -/
def getProductTitle (product : Product) (index : Int := 0) : JVal :=
  (coalesce product.name
    (coalesce product.productName
      (coalesce product.title
        (some (.jstr s!"Product {index + 1}"))))).getD .jnull

/-- `typeof v === 'number'` on a property value. -/
def isNumber : Option JVal → Bool
  | some (.jnum _) => true
  | _ => false

/-- A guarded field read: the field's value when
`typeof v === 'number'`, nothing otherwise. -/
def asNumber : Option JVal → Option Int
  | some (.jnum n) => some n
  | _ => none

/-- `getProductPrice` from `src/utils/products.ts`: return `price` if it
passes the `typeof === 'number'` guard, else `sellingPrice` under the
same guard, else `mrp`, else `null`. -/
def getProductPrice (product : Product) : Option Int :=
  match asNumber product.price with
  | some n => some n
  | none =>
    match asNumber product.sellingPrice with
    | some n => some n
    | none => asNumber product.mrp

/-- `m[k]`: first binding of `k` in an insertion-ordered object. -/
def lookupKey {α : Type} : List (String × α) → String → Option α
  | [], _ => none
  | (k', v) :: rest, k => if k' = k then some v else lookupKey rest k

/-- The object spread `{...m, [k]: v}`: if `k` is bound, its (unique in a
real JS object) binding keeps its position and gets the new value;
otherwise the binding is appended. -/
def setKey {α : Type} : List (String × α) → String → α → List (String × α)
  | [], k, v => [(k, v)]
  | (k', v') :: rest, k, v =>
    if k' = k then (k, v) :: rest else (k', v') :: setKey rest k v

/-- The rest spread `const { [k]: _removed, ...rest } = m`: every
binding except the one for `k`. -/
def removeKey {α : Type} : List (String × α) → String → List (String × α)
  | [], _ => []
  | (k', v') :: rest, k =>
    if k' = k then removeKey rest k else (k', v') :: removeKey rest k

namespace CartStore

/-- `CartEntry` of `src/store/cartStore.ts`. -/
structure CartEntry where
  product : Product
  quantity : Int
  deriving Repr

/-- `CartItemsMap = Record<string, CartEntry>`. -/
abbrev CartItemsMap := List (String × CartEntry)

/-- The store's initial state: `items: {}`. -/
def emptyCart : CartItemsMap := []

/-- `incrementItem(key, product)` of `src/store/cartStore.ts`:
`{...items, [key]: { product, quantity: (items[key]?.quantity ?? 0) + 1 }}`. -/
def incrementItem (items : CartItemsMap) (key : String)
    (product : Product) : CartItemsMap :=
  setKey items key
    { product := product
      quantity := (match lookupKey items key with
        | some entry => entry.quantity
        | none => 0) + 1 }

/-- `decrementItem(key)` of `src/store/cartStore.ts`. -/
def decrementItem (items : CartItemsMap) (key : String) : CartItemsMap :=
  match lookupKey items key with
  | none => items
  | some entry =>
    let nextQuantity := entry.quantity - 1
    if nextQuantity ≤ 0 then
      removeKey items key
    else
      setKey items key { entry with quantity := nextQuantity }

/-- `removeItem(key)` of `src/store/cartStore.ts`. -/
def removeItem (items : CartItemsMap) (key : String) : CartItemsMap :=
  match lookupKey items key with
  | none => items
  | some _ => removeKey items key

/-- `clear()` of `src/store/cartStore.ts`. -/
def clear (_items : CartItemsMap) : CartItemsMap := []

/-- One call into the cart store's public mutating interface. -/
inductive CartOp where
  | increment (key : String) (product : Product) : CartOp
  | decrement (key : String) : CartOp
  | remove (key : String) : CartOp
  | clearAll : CartOp

/-- Run one operation on the items map. -/
def applyOp (items : CartItemsMap) : CartOp → CartItemsMap
  | .increment key product => incrementItem items key product
  | .decrement key => decrementItem items key
  | .remove key => removeItem items key
  | .clearAll => clear items

/-- Run a sequence of operations, first element first. -/
def applyOps (ops : List CartOp) (items : CartItemsMap) : CartItemsMap :=
  ops.foldl applyOp items

/-- `incrementItem(key, product)` called `n` times in a row. -/
def incrementN (items : CartItemsMap) (key : String) (product : Product) :
    Nat → CartItemsMap
  | 0 => items
  | n + 1 => incrementItem (incrementN items key product n) key product

end CartStore

namespace FavoritesStore

/-- `FavoriteItemsMap = Record<string, Product>`. -/
abbrev FavoriteItemsMap := List (String × Product)

/-- `toggleItem(key, product)` of `src/store/favoritesStore.ts`:
remove the key if bound, otherwise insert the payload. -/
def toggleItem (items : FavoriteItemsMap) (key : String)
    (product : Product) : FavoriteItemsMap :=
  match lookupKey items key with
  | some _ => removeKey items key
  | none => setKey items key product

/-- `removeItem(key)` of `src/store/favoritesStore.ts`. -/
def removeItem (items : FavoriteItemsMap) (key : String) : FavoriteItemsMap :=
  match lookupKey items key with
  | none => items
  | some _ => removeKey items key

end FavoritesStore

/-- `normalizeProducts` of `src/pages/Shop.tsx` (and of the unnamed
shop page variant): falsy payloads give `[]`; an array is returned as
is; an object's `data` property is returned when it is an array, else
its `items` property when that is an array; everything else gives `[]`. -/
def normalizeProducts (payload : JVal) : List JVal :=
  if falsy payload then []
  else
    match payload with
    | .jarr elems => elems
    | .jobj fields =>
      match lookupKey fields "data" with
      | some (.jarr elems) => elems
      | _ =>
        match lookupKey fields "items" with
        | some (.jarr elems) => elems
        | _ => []
    | _ => []

/-! ### Map lemmas -/

theorem lookupKey_setKey_self {α : Type} (m : List (String × α))
    (k : String) (v : α) : lookupKey (setKey m k v) k = some v := by
  induction m with
  | nil => simp [setKey, lookupKey]
  | cons kv rest ih =>
    obtain ⟨k', v'⟩ := kv
    by_cases h : k' = k
    · simp [setKey, h, lookupKey]
    · simp [setKey, h, lookupKey, ih]

theorem lookupKey_setKey_other {α : Type} (m : List (String × α))
    (k k' : String) (v : α) (hne : k' ≠ k) :
    lookupKey (setKey m k v) k' = lookupKey m k' := by
  induction m with
  | nil => simp [setKey, lookupKey, Ne.symm hne]
  | cons kv rest ih =>
    obtain ⟨k₀, v₀⟩ := kv
    by_cases h : k₀ = k
    · subst h
      simp [setKey, lookupKey, Ne.symm hne]
    · simp [setKey, h, lookupKey, ih]

theorem lookupKey_removeKey_self {α : Type} (m : List (String × α))
    (k : String) : lookupKey (removeKey m k) k = none := by
  induction m with
  | nil => simp [removeKey, lookupKey]
  | cons kv rest ih =>
    obtain ⟨k₀, v₀⟩ := kv
    by_cases h : k₀ = k
    · simp [removeKey, h, ih]
    · simp [removeKey, h, lookupKey, ih]

theorem lookupKey_removeKey_other {α : Type} (m : List (String × α))
    (k k' : String) (hne : k' ≠ k) :
    lookupKey (removeKey m k) k' = lookupKey m k' := by
  induction m with
  | nil => simp [removeKey]
  | cons kv rest ih =>
    obtain ⟨k₀, v₀⟩ := kv
    by_cases h : k₀ = k
    · subst h
      simp [removeKey, lookupKey, Ne.symm hne, ih]
    · simp [removeKey, h, lookupKey, ih]

/-! ### Cart store lemmas -/

namespace CartStore

/-- All stored quantities are at least 1. -/
def CartInv (items : CartItemsMap) : Prop :=
  ∀ k e, lookupKey items k = some e → 1 ≤ e.quantity

theorem cartInv_empty : CartInv emptyCart := by
  intro k e h
  simp [emptyCart, lookupKey] at h

theorem cartInv_incrementItem (items : CartItemsMap) (key : String)
    (product : Product) (hinv : CartInv items) :
    CartInv (incrementItem items key product) := by
  intro k e h
  rw [incrementItem] at h
  by_cases hk : k = key
  · subst hk
    rw [lookupKey_setKey_self] at h
    cases h
    rcases hl : lookupKey items k with _ | entry
    · simp [hl]
    · have := hinv k entry hl
      simp [hl]
      omega
  · rw [lookupKey_setKey_other _ _ _ _ hk] at h
    exact hinv k e h

theorem cartInv_decrementItem (items : CartItemsMap) (key : String)
    (hinv : CartInv items) : CartInv (decrementItem items key) := by
  intro k e h
  rw [decrementItem] at h
  rcases hl : lookupKey items key with _ | entry
  · rw [hl] at h
    exact hinv k e h
  · rw [hl] at h
    dsimp only at h
    by_cases hq : entry.quantity - 1 ≤ 0
    · rw [if_pos hq] at h
      by_cases hk : k = key
      · subst hk
        rw [lookupKey_removeKey_self] at h
        cases h
      · rw [lookupKey_removeKey_other _ _ _ hk] at h
        exact hinv k e h
    · rw [if_neg hq] at h
      by_cases hk : k = key
      · subst hk
        rw [lookupKey_setKey_self] at h
        cases h
        simp
        omega
      · rw [lookupKey_setKey_other _ _ _ _ hk] at h
        exact hinv k e h

theorem cartInv_removeItem (items : CartItemsMap) (key : String)
    (hinv : CartInv items) : CartInv (removeItem items key) := by
  intro k e h
  rw [removeItem] at h
  rcases hl : lookupKey items key with _ | entry
  · rw [hl] at h
    exact hinv k e h
  · rw [hl] at h
    by_cases hk : k = key
    · subst hk
      rw [lookupKey_removeKey_self] at h
      cases h
    · rw [lookupKey_removeKey_other _ _ _ hk] at h
      exact hinv k e h

theorem cartInv_applyOp (items : CartItemsMap) (op : CartOp)
    (hinv : CartInv items) : CartInv (applyOp items op) := by
  cases op with
  | increment key product => exact cartInv_incrementItem items key product hinv
  | decrement key => exact cartInv_decrementItem items key hinv
  | remove key => exact cartInv_removeItem items key hinv
  | clearAll =>
    intro k e h
    simp [applyOp, clear, lookupKey] at h

theorem cartInv_applyOps (ops : List CartOp) (items : CartItemsMap)
    (hinv : CartInv items) : CartInv (applyOps ops items) := by
  induction ops generalizing items with
  | nil => exact hinv
  | cons op rest ih => exact ih (applyOp items op) (cartInv_applyOp items op hinv)

end CartStore

/-- A value failing the `typeof === 'number'` guard contributes
nothing. -/
theorem asNumber_eq_none {o : Option JVal} (h : isNumber o = false) :
    asNumber o = none := by
  rcases o with _ | v
  · rfl
  · cases v with
    | jnum n => exact absurd h (by simp [isNumber])
    | jnull => rfl
    | jbool b => rfl
    | jstr s => rfl
    | jarr xs => rfl
    | jobj f => rfl

namespace Claims

open CartStore FavoritesStore

/-- C1.  Cart-map invariant: starting from the empty cart, after any
sequence of `incrementItem`, `decrementItem`, `removeItem` and `clear`
operations, every key present in the cart map has quantity ≥ 1; no
reachable state holds an entry with quantity ≤ 0. -/
theorem cart_quantity_invariant (ops : List CartOp) (k : String)
    (e : CartEntry) (h : lookupKey (applyOps ops emptyCart) k = some e) :
    1 ≤ e.quantity :=
  cartInv_applyOps ops emptyCart cartInv_empty k e h

/-- Witness for C1: after a single increment of key `"a"`, the entry has
quantity 1 ≥ 1. -/
theorem cart_quantity_invariant_witness :
    (1 : Int) ≤ ({ product := {}, quantity := 1 } : CartEntry).quantity :=
  cart_quantity_invariant [.increment "a" {}] "a"
    { product := {}, quantity := 1 } rfl

/-- C2.  For every key `k` and product `p`, calling
`incrementItem(k, p)` `n` times (`n ≥ 1`) starting from a cart in which
`k` is absent yields a cart whose entry for `k` has quantity exactly
`n` (and the payload `p`). -/
theorem incrementItem_repeated_quantity (items : CartItemsMap)
    (k : String) (p : Product) (n : Nat)
    (habs : lookupKey items k = none) (hn : 1 ≤ n) :
    lookupKey (incrementN items k p n) k =
      some { product := p, quantity := (n : Int) } := by
  induction n with
  | zero => omega
  | succ m ih =>
    rw [incrementN, incrementItem]
    rcases Nat.eq_zero_or_pos m with hm | hm
    · subst hm
      rw [incrementN, habs, lookupKey_setKey_self]
      rfl
    · rw [ih hm, lookupKey_setKey_self]
      simp

/-- Witness for C2: three increments of `"a"` into the empty cart give
quantity 3. -/
theorem incrementItem_repeated_quantity_witness :
    lookupKey (incrementN emptyCart "a" {} 3) "a" =
      some { product := {}, quantity := (3 : Int) } :=
  incrementItem_repeated_quantity emptyCart "a" {} 3 rfl (by decide)

/-- C3.  `decrementItem(k)` is a no-op when `k` is absent; when `k` has
quantity 1 it removes the key entirely (membership fails afterward);
when `k` has quantity `q ≥ 2` it keeps the entry, with the same product
payload, at quantity `q - 1`. -/
theorem decrementItem_cases (items : CartItemsMap) (k : String) :
    (lookupKey items k = none → decrementItem items k = items) ∧
    (∀ e : CartEntry, lookupKey items k = some e → e.quantity = 1 →
      lookupKey (decrementItem items k) k = none) ∧
    (∀ e : CartEntry, lookupKey items k = some e → 2 ≤ e.quantity →
      lookupKey (decrementItem items k) k =
        some { product := e.product, quantity := e.quantity - 1 }) := by
  refine ⟨?_, ?_, ?_⟩
  · intro h
    rw [decrementItem, h]
  · intro e he hq
    rw [decrementItem, he]
    dsimp only
    rw [if_pos (by omega)]
    exact lookupKey_removeKey_self items k
  · intro e he hq
    rw [decrementItem, he]
    dsimp only
    rw [if_neg (by omega)]
    exact lookupKey_setKey_self items k _

/-- Witness for C3: decrementing key `"a"` at quantity 1 removes it;
decrementing at quantity 2 leaves quantity 1; decrementing in the empty
cart is a no-op. -/
theorem decrementItem_cases_witness :
    lookupKey (decrementItem [("a", { product := {}, quantity := 1 })] "a")
        "a" = none ∧
    lookupKey (decrementItem [("a", { product := {}, quantity := 2 })] "a")
        "a" = some { product := {}, quantity := 1 } ∧
    decrementItem emptyCart "a" = emptyCart :=
  ⟨(decrementItem_cases [("a", { product := {}, quantity := 1 })] "a").2.1
      { product := {}, quantity := 1 } rfl rfl,
   (decrementItem_cases [("a", { product := {}, quantity := 2 })] "a").2.2
      { product := {}, quantity := 2 } rfl (by decide),
   (decrementItem_cases emptyCart "a").1 rfl⟩

/-- C4.  Applying `toggleItem(k, p)` twice in a row returns the
favorites map to its original membership state for `k`: `k` is present
after the pair if and only if it was present before. -/
theorem toggleItem_twice_membership (items : FavoriteItemsMap)
    (k : String) (p : Product) :
    (lookupKey (toggleItem (toggleItem items k p) k p) k).isSome =
      (lookupKey items k).isSome := by
  rcases hl : lookupKey items k with _ | q
  · have h1 : toggleItem items k p = setKey items k p := by
      rw [toggleItem, hl]
    rw [h1, toggleItem, lookupKey_setKey_self]
    dsimp only
    rw [lookupKey_removeKey_self]
  · have h1 : toggleItem items k p = removeKey items k := by
      rw [toggleItem, hl]
    rw [h1, toggleItem, lookupKey_removeKey_self]
    dsimp only
    rw [lookupKey_setKey_self]
    rfl

/-- C8.  Acting on an absent key is a no-op: `decrementItem` and
`removeItem` on the cart store and `removeItem` on the favorites store
leave the state exactly unchanged when the key is not in the map (and,
being total functions, never fail). -/
theorem absent_key_noop (citems : CartItemsMap)
    (fitems : FavoriteItemsMap) (k : String) :
    (lookupKey citems k = none →
      decrementItem citems k = citems ∧
      CartStore.removeItem citems k = citems) ∧
    (lookupKey fitems k = none →
      FavoritesStore.removeItem fitems k = fitems) := by
  constructor
  · intro h
    constructor
    · rw [decrementItem, h]
    · rw [CartStore.removeItem, h]
  · intro h
    rw [FavoritesStore.removeItem, h]

/-- Witness for C8: removing or decrementing the unknown key `"z"` in a
one-entry cart, and removing it from a one-entry favorites map, changes
nothing. -/
theorem absent_key_noop_witness :
    (decrementItem [("a", { product := {}, quantity := 2 })] "z" =
        [("a", { product := {}, quantity := 2 })] ∧
      CartStore.removeItem [("a", { product := {}, quantity := 2 })] "z" =
        [("a", { product := {}, quantity := 2 })]) ∧
    FavoritesStore.removeItem [("a", ({} : Product))] "z" =
      [("a", ({} : Product))] :=
  ⟨(absent_key_noop [("a", { product := {}, quantity := 2 })]
      [("a", {})] "z").1 rfl,
   (absent_key_noop [("a", { product := {}, quantity := 2 })]
      [("a", {})] "z").2 rfl⟩

/-- C10.  Frame property: `incrementItem(k, p)`, `decrementItem(k)` and
`removeItem(k)` on the cart store, and `toggleItem(k, p)` and
`removeItem(k)` on the favorites store, leave the binding of every
other key `k' ≠ k` (payload and quantity) unchanged. -/
theorem store_ops_frame (citems : CartItemsMap)
    (fitems : FavoriteItemsMap) (k k' : String) (p : Product)
    (hne : k' ≠ k) :
    lookupKey (incrementItem citems k p) k' = lookupKey citems k' ∧
    lookupKey (decrementItem citems k) k' = lookupKey citems k' ∧
    lookupKey (CartStore.removeItem citems k) k' = lookupKey citems k' ∧
    lookupKey (toggleItem fitems k p) k' = lookupKey fitems k' ∧
    lookupKey (FavoritesStore.removeItem fitems k) k' =
      lookupKey fitems k' := by
  refine ⟨?_, ?_, ?_, ?_, ?_⟩
  · rw [incrementItem, lookupKey_setKey_other _ _ _ _ hne]
  · rw [decrementItem]
    rcases hl : lookupKey citems k with _ | entry
    · rfl
    · dsimp only
      by_cases hq : entry.quantity - 1 ≤ 0
      · rw [if_pos hq, lookupKey_removeKey_other _ _ _ hne]
      · rw [if_neg hq, lookupKey_setKey_other _ _ _ _ hne]
  · rw [CartStore.removeItem]
    rcases hl : lookupKey citems k with _ | entry
    · rfl
    · exact lookupKey_removeKey_other _ _ _ hne
  · rw [toggleItem]
    rcases hl : lookupKey fitems k with _ | q
    · exact lookupKey_setKey_other _ _ _ _ hne
    · exact lookupKey_removeKey_other _ _ _ hne
  · rw [FavoritesStore.removeItem]
    rcases hl : lookupKey fitems k with _ | q
    · rfl
    · exact lookupKey_removeKey_other _ _ _ hne

/-- Witness for C10: operating on key `"a"` leaves key `"b"`'s bindings
untouched in both stores. -/
theorem store_ops_frame_witness :
    lookupKey
        (incrementItem [("b", { product := {}, quantity := 5 })] "a" {})
        "b" =
      lookupKey [("b", { product := {}, quantity := 5 })] "b" ∧
    lookupKey (toggleItem [("b", ({} : Product))] "a" {}) "b" =
      lookupKey [("b", ({} : Product))] "b" :=
  ⟨(store_ops_frame [("b", { product := {}, quantity := 5 })]
      [("b", {})] "a" "b" {} (by decide)).1,
   (store_ops_frame [("b", { product := {}, quantity := 5 })]
      [("b", {})] "a" "b" {} (by decide)).2.2.2.1⟩

/-- C5.  `normalizeProducts` returns a list payload itself; else the
`data` field when it is a list; else the `items` field when it is a
list; and `[]` for every other input (being a total function, it never
throws). -/
theorem normalizeProducts_shapes :
    (∀ elems, normalizeProducts (.jarr elems) = elems) ∧
    (∀ fields elems, lookupKey fields "data" = some (.jarr elems) →
      normalizeProducts (.jobj fields) = elems) ∧
    (∀ fields elems,
      (∀ xs, lookupKey fields "data" ≠ some (.jarr xs)) →
      lookupKey fields "items" = some (.jarr elems) →
      normalizeProducts (.jobj fields) = elems) ∧
    (∀ payload, (∀ xs, payload ≠ .jarr xs) →
      (∀ fields, payload = .jobj fields →
        (∀ xs, lookupKey fields "data" ≠ some (.jarr xs)) ∧
        (∀ xs, lookupKey fields "items" ≠ some (.jarr xs))) →
      normalizeProducts payload = []) := by
  refine ⟨?_, ?_, ?_, ?_⟩
  · intro elems
    rw [normalizeProducts, if_neg (by simp [falsy])]
  · intro fields elems h
    rw [normalizeProducts, if_neg (by simp [falsy])]
    rw [h]
  · intro fields elems hdata hitems
    rw [normalizeProducts, if_neg (by simp [falsy])]
    rw [hitems]
    rcases hd : lookupKey fields "data" with _ | v
    · rfl
    · cases v with
      | jarr xs => exact absurd hd (hdata xs)
      | jnull => rfl
      | jbool b => rfl
      | jnum n => rfl
      | jstr s => rfl
      | jobj f => rfl
  · intro payload harr hobj
    cases payload with
    | jnull => rfl
    | jbool b => cases b <;> rfl
    | jnum n => simp [normalizeProducts]
    | jstr s => simp [normalizeProducts]
    | jarr elems => exact absurd rfl (harr elems)
    | jobj fields =>
      obtain ⟨hdata, hitems⟩ := hobj fields rfl
      rw [normalizeProducts, if_neg (by simp [falsy])]
      rcases hd : lookupKey fields "data" with _ | v
      · rcases hi : lookupKey fields "items" with _ | w
        · rfl
        · cases w with
          | jarr xs => exact absurd hi (hitems xs)
          | jnull => rfl
          | jbool b => rfl
          | jnum n => rfl
          | jstr s => rfl
          | jobj f => rfl
      · cases v with
        | jarr xs => exact absurd hd (hdata xs)
        | _ =>
          rcases hi : lookupKey fields "items" with _ | w
          · rfl
          · cases w with
            | jarr xs => exact absurd hi (hitems xs)
            | jnull => rfl
            | jbool b => rfl
            | jnum n => rfl
            | jstr s => rfl
            | jobj f => rfl

/-- Witness for C5: a bare list round-trips; `{data: [1]}` gives `[1]`;
`{items: [2]}` gives `[2]`; `{}`, `null` and a string give `[]`. -/
theorem normalizeProducts_shapes_witness :
    normalizeProducts (.jarr [.jnum 7]) = [.jnum 7] ∧
    normalizeProducts (.jobj [("data", .jarr [.jnum 1])]) = [.jnum 1] ∧
    normalizeProducts (.jobj [("items", .jarr [.jnum 2])]) = [.jnum 2] ∧
    normalizeProducts (.jobj []) = [] ∧
    normalizeProducts .jnull = [] ∧
    normalizeProducts (.jstr "oops") = [] :=
  ⟨normalizeProducts_shapes.1 [.jnum 7],
   normalizeProducts_shapes.2.1 [("data", .jarr [.jnum 1])] [.jnum 1] rfl,
   normalizeProducts_shapes.2.2.1 [("items", .jarr [.jnum 2])] [.jnum 2]
     (fun xs h => by simp [lookupKey] at h) rfl,
   normalizeProducts_shapes.2.2.2 (.jobj [])
     (fun xs h => by cases h)
     (fun fields h => by
       cases h
       exact ⟨fun xs hh => by simp [lookupKey] at hh,
         fun xs hh => by simp [lookupKey] at hh⟩),
   normalizeProducts_shapes.2.2.2 .jnull
     (fun xs h => by cases h) (fun fields h => by cases h),
   normalizeProducts_shapes.2.2.2 (.jstr "oops")
     (fun xs h => by cases h) (fun fields h => by cases h)⟩

/-- C6.  `getProductPrice` returns the `price` field when it is a
number (regardless of `sellingPrice`/`mrp`), else a numeric
`sellingPrice`, else a numeric `mrp`, and `none` when no candidate is a
number. -/
theorem getProductPrice_priority (p : Product) :
    (∀ n : Int, p.price = some (.jnum n) → getProductPrice p = some n) ∧
    (∀ n : Int, isNumber p.price = false →
      p.sellingPrice = some (.jnum n) → getProductPrice p = some n) ∧
    (∀ n : Int, isNumber p.price = false →
      isNumber p.sellingPrice = false →
      p.mrp = some (.jnum n) → getProductPrice p = some n) ∧
    (isNumber p.price = false → isNumber p.sellingPrice = false →
      isNumber p.mrp = false → getProductPrice p = none) := by
  refine ⟨?_, ?_, ?_, ?_⟩
  · intro n h
    rw [getProductPrice, h]
    rfl
  · intro n hp hs
    rw [getProductPrice, asNumber_eq_none hp, hs]
    rfl
  · intro n hp hs hm
    rw [getProductPrice, asNumber_eq_none hp, asNumber_eq_none hs, hm]
    rfl
  · intro hp hs hm
    rw [getProductPrice, asNumber_eq_none hp, asNumber_eq_none hs,
      asNumber_eq_none hm]

/-- Witness for C6: `price` wins over the other fields; a string
`price: "N/A"` with no other numeric field gives `none`. -/
theorem getProductPrice_priority_witness :
    getProductPrice
        { price := some (.jnum 100), sellingPrice := some (.jnum 80)
          mrp := some (.jnum 120) } = some 100 ∧
    getProductPrice { price := some (.jstr "N/A") } = none :=
  ⟨(getProductPrice_priority
      { price := some (.jnum 100), sellingPrice := some (.jnum 80)
        mrp := some (.jnum 120) }).1 100 rfl,
   (getProductPrice_priority { price := some (.jstr "N/A") }).2.2.2
      rfl rfl rfl⟩

/-- C7 counterexample.  The claim says an empty-string candidate is
skipped in favor of the next candidate, but `getProductTitle` uses
nullish coalescing (`??`), which only skips `null`/`undefined`: with
`name: ""` and `productName: "Aqua Filter"` it returns `""`, not
`"Aqua Filter"`. -/
theorem getProductTitle_empty_string_kept :
    getProductTitle
        { name := some (.jstr "")
          productName := some (.jstr "Aqua Filter") } 0 = .jstr "" ∧
    getProductTitle
        { name := some (.jstr "")
          productName := some (.jstr "Aqua Filter") } 0 ≠
      .jstr "Aqua Filter" :=
  ⟨rfl, by
    intro h
    have h2 : JVal.jstr "" = JVal.jstr "Aqua Filter" := h
    injection h2 with hs
    exact absurd hs (by decide)⟩

/-- C7 (amended).  `getProductTitle` returns the first candidate among
`name`, `productName`, `title` that is neither absent nor `null` (an
empty string is such a candidate and is returned as-is), and the
placeholder `"Product " ++ (index + 1)` when every candidate is absent
or `null`. -/
theorem getProductTitle_first_present (p : Product) (i : Int) :
    (∀ v, p.name = some v → v ≠ .jnull → getProductTitle p i = v) ∧
    (nullish p.name = true → ∀ v, p.productName = some v → v ≠ .jnull →
      getProductTitle p i = v) ∧
    (nullish p.name = true → nullish p.productName = true →
      ∀ v, p.title = some v → v ≠ .jnull → getProductTitle p i = v) ∧
    (nullish p.name = true → nullish p.productName = true →
      nullish p.title = true →
      getProductTitle p i = .jstr s!"Product {i + 1}") := by
  refine ⟨?_, ?_, ?_, ?_⟩
  · intro v h hv
    have hn : nullish p.name = false := by
      rw [h]; cases v <;> simp_all [nullish]
    rw [getProductTitle, coalesce, hn]
    simp [h]
  · intro hn v h hv
    have hpn : nullish p.productName = false := by
      rw [h]; cases v <;> simp_all [nullish]
    rw [getProductTitle, coalesce, hn, coalesce, hpn]
    simp [h]
  · intro hn hpn v h hv
    have ht : nullish p.title = false := by
      rw [h]; cases v <;> simp_all [nullish]
    rw [getProductTitle, coalesce, hn, coalesce, hpn, coalesce, ht]
    simp [h]
  · intro hn hpn ht
    rw [getProductTitle, coalesce, hn, coalesce, hpn, coalesce, ht]
    rfl

/-- Witness for C7 (amended): with `name` absent and `productName`
present, `getProductTitle` returns the `productName` value; with no
candidate at all and index 2 it returns `"Product 3"`. -/
theorem getProductTitle_first_present_witness :
    getProductTitle { productName := some (.jstr "Aqua") } 0 =
      .jstr "Aqua" ∧
    getProductTitle ({} : Product) 2 = .jstr "Product 3" :=
  ⟨(getProductTitle_first_present { productName := some (.jstr "Aqua") }
      0).2.1 rfl (.jstr "Aqua") rfl (by simp),
   (getProductTitle_first_present {} 2).2.2.2 rfl rfl rfl⟩

/-- C9.  `getProductKey` is deterministic whenever the time-based last
resort is unreachable: if some candidate in the chain
`id ?? productId ?? product_id ?? sku ?? fallback` is non-nullish, the
key does not depend on the current time. -/
theorem getProductKey_deterministic (p : Product) (fb : Option JVal)
    (t₁ t₂ : Int)
    (h : nullish p.id = false ∨ nullish p.productId = false ∨
      nullish p.product_id = false ∨ nullish p.sku = false ∨
      nullish fb = false) :
    getProductKey p fb t₁ = getProductKey p fb t₂ := by
  simp only [getProductKey, coalesce]
  rcases h with h | h | h | h | h <;> simp [h]

/-- Witness for C9: a product keyed by its `sku` gets the same key at
two different times. -/
theorem getProductKey_deterministic_witness :
    getProductKey { sku := some (.jstr "SKU-9") } none 1000 =
      getProductKey { sku := some (.jstr "SKU-9") } none 2000 :=
  getProductKey_deterministic { sku := some (.jstr "SKU-9") } none
    1000 2000 (Or.inr (Or.inr (Or.inr (Or.inl rfl))))

end Claims

end Aquakart
